import Mathlib

/-!
Shallow embedding of the orchestrator core of the oteldemo repository:
`RedisService.publish_dns_task`, `RedisService.wait_for_results`
(src/services/orchestrator/app/services/redis_service.py) and the route
handler `orchestrate_dns_lookup` / `aggregate_results`
(src/services/orchestrator/app/routes/dns_routes.py).

Redis interactions are modelled by an explicit environment: the outcome of
`xgroup_create` and the sequence of poll outcomes (`xreadgroup` calls, each
either raising or delivering a batch of raw messages, together with the
elapsed seconds observed at the timeout check of that iteration).  Effects
(`xack`, `xgroup_destroy`, messages iterated) are recorded in the run result.
-/

namespace Oteldemo

/-- A worker result as parsed from the JSON `data` field of a stream message.
Fields mirror the keys read by the Python code (`result.get(...)`); `none`
models an absent key.  `processing_time_ms` and `records` are opaque payloads
carried through unchanged. -/
structure WorkerResult where
  trace_id : Option String
  location : Option String
  status : Option String
  records : Option String
  error : Option String
  processing_time_ms : Option Int
deriving DecidableEq, Repr

/-- A raw message on the `dns:results` stream: its Redis message id and the
outcome of `json.loads(message_data.get("data", "{}"))` — `none` models a
parse failure (the per-message `except` path). -/
structure RawMessage where
  msgId : String
  parsed : Option WorkerResult
deriving DecidableEq, Repr

/-- Outcome of one `xreadgroup` call: either it raises, or it delivers a
(possibly empty) batch of messages. -/
inductive PollOutcome where
  | exn
  | msgs (batch : List RawMessage)
deriving DecidableEq, Repr

/-- One iteration of the collection loop as observed from the environment:
the elapsed seconds at the top-of-loop timeout check, and the outcome of the
`xreadgroup` call of the iteration (unused when the deadline already passed). -/
structure Poll where
  elapsed : Nat
  outcome : PollOutcome
deriving DecidableEq, Repr

/-- Outcome of the `xgroup_create` call: success, a `redis.ResponseError`
with the given message, or an exception of another class. -/
inductive CreateOutcome where
  | ok
  | respError (msg : String)
  | otherExn
deriving DecidableEq, Repr

/-- Environment of one `wait_for_results` run. -/
structure Env where
  create : CreateOutcome
  polls : List Poll
deriving Repr

/-- Observable behaviour of one `wait_for_results` run: the returned list,
the ids acknowledged via `xack`, the number of `xgroup_destroy` invocations,
every raw message iterated over, and whether the outer `except Exception`
handler was entered. -/
structure RunResult where
  results : List WorkerResult
  acks : List String
  destroys : Nat
  seen : List RawMessage
  viaExcept : Bool
deriving DecidableEq, Repr

deriving instance DecidableEq for Except

/-- Tests whether `pat` begins the character list `s`. -/
def startsWithSeq : List Char → List Char → Bool
  | [], _ => true
  | _ :: _, [] => false
  | p :: ps, c :: cs => p = c && startsWithSeq ps cs

/-- Tests whether `pat` occurs contiguously in `s`: the Python
`"BUSYGROUP" in str(e)` membership test. -/
def containsSeq (pat : List Char) : List Char → Bool
  | [] => startsWithSeq pat []
  | c :: rest => startsWithSeq pat (c :: rest) || containsSeq pat rest

/-- Derivation `consumer_group = f"orchestrator-\x7btrace_id\x7d"`. -/
def consumer_group (trace_id : String) : String :=
  "orchestrator-" ++ trace_id

/-- Derivation `consumer_name = f"consumer-\x7btrace_id\x7d"`. -/
def consumer_name (trace_id : String) : String :=
  "consumer-" ++ trace_id

/-- The guarded `xgroup_create` of `wait_for_results` (redis_service.py
lines 115-125): a `ResponseError` whose message contains `BUSYGROUP` is
swallowed, any other failure is re-raised (`Except.error`). -/
def openWindow : CreateOutcome → Except Unit Unit
  | CreateOutcome.ok => Except.ok ()
  | CreateOutcome.respError m =>
      if containsSeq "BUSYGROUP".toList m.toList then Except.ok () else Except.error ()
  | CreateOutcome.otherExn => Except.error ()

/-- The body of the inner `for` loop over one batch (redis_service.py lines
148-166): parse, append when `result.get("trace_id") == trace_id`, then
acknowledge; a parse failure skips both the append and the ack. -/
def processBatch (trace_id : String) :
    List RawMessage → List WorkerResult → List String → List WorkerResult × List String
  | [], results, acks => (results, acks)
  | m :: rest, results, acks =>
    match m.parsed with
    | none => processBatch trace_id rest results acks
    | some r =>
      let results' := if r.trace_id = some trace_id then results ++ [r] else results
      processBatch trace_id rest results' (acks ++ [m.msgId])

/-- The `while len(results) < expected_count` loop (redis_service.py lines
130-166), driven by the environment's polls.  Returns `none` when the
environment does not determine the whole run (polls exhausted with the loop
still running); otherwise the accumulated results, acks, seen messages and
whether the loop was left through an exception (`xreadgroup` raising). -/
def collectLoop (trace_id : String) (expected_count timeout_seconds : Nat) :
    List Poll → List WorkerResult → List String → List RawMessage →
    Option (List WorkerResult × List String × List RawMessage × Bool)
  | polls, results, acks, seen =>
    if expected_count ≤ results.length then some (results, acks, seen, false)
    else
      match polls with
      | [] => none
      | p :: rest =>
        if timeout_seconds < p.elapsed then some (results, acks, seen, false)
        else
          match p.outcome with
          | PollOutcome.exn => some (results, acks, seen, true)
          | PollOutcome.msgs batch =>
            let pr := processBatch trace_id batch results acks
            collectLoop trace_id expected_count timeout_seconds rest pr.1 pr.2 (seen ++ batch)

/-- Embedding of `RedisService.wait_for_results` (redis_service.py lines
95-181).  The
codomain's `Except Unit RunResult` is the function's error channel: an
`Except.error` would model an exception escaping to the caller.  The outer
`except Exception` handler returns the accumulated `results` instead, so
every determined run is `Except.ok`; an exception path performs no
`xgroup_destroy` (cleanup sits before the handler), a normal or deadline
exit performs exactly one. -/
def wait_for_results (trace_id : String) (expected_count timeout_seconds : Nat)
    (env : Env) : Option (Except Unit RunResult) :=
  match openWindow env.create with
  | Except.error () => some (Except.ok ⟨[], [], 0, [], true⟩)
  | Except.ok () =>
    match collectLoop trace_id expected_count timeout_seconds env.polls [] [] [] with
    | none => none
    | some (results, acks, seen, exnExit) =>
      if exnExit then some (Except.ok ⟨results, acks, 0, seen, true⟩)
      else some (Except.ok ⟨results, acks, 1, seen, false⟩)

/-- Per-location entry written into `aggregated["by_location"][location]`
(dns_routes.py lines 135-140): status and payload fields copied from the
record, with the code's defaults (`result.get("records", {})` rendered as
the empty-object text, `result.get("processing_time_ms", 0)`). -/
structure LocRecord where
  status : String
  records : String
  error : Option String
  processing_time_ms : Int
deriving DecidableEq, Repr

/-- Summary counters of `aggregate_results`. -/
structure Summary where
  total_locations : Nat
  successful : Nat
  failed : Nat
deriving DecidableEq, Repr

/-- The value returned by `aggregate_results`: the `by_location` Python dict
is modelled as an insertion-ordered association list updated in place. -/
structure Aggregated where
  by_location : List (String × LocRecord)
  summary : Summary
deriving DecidableEq, Repr

/-- Python dict assignment `d[k] = v`: overwrite in place when the key
exists, append otherwise. -/
def dictSet (k : String) (v : LocRecord) : List (String × LocRecord) → List (String × LocRecord)
  | [] => [(k, v)]
  | (k', v') :: rest => if k' = k then (k, v) :: rest else (k', v') :: dictSet k v rest

/-- Python dict read `d[k]` (as an optional value) on the modelled
association list. -/
def dictGet (k : String) : List (String × LocRecord) → Option LocRecord
  | [] => none
  | (k', v) :: rest => if k' = k then some v else dictGet k rest

/-- Reads `result.get("location", "unknown")`. -/
def locationOf (r : WorkerResult) : String := r.location.getD "unknown"

/-- Reads `result.get("status", "unknown")`. -/
def statusOf (r : WorkerResult) : String := r.status.getD "unknown"

/-- The entry stored for one record in `by_location`. -/
def mkLocRecord (r : WorkerResult) : LocRecord :=
  ⟨statusOf r, r.records.getD "\x7b\x7d", r.error, r.processing_time_ms.getD 0⟩

/-- The body of the `for result in results` loop of `aggregate_results`
(dns_routes.py lines 131-145). -/
def aggStep (acc : Aggregated) (r : WorkerResult) : Aggregated :=
  let acc' : Aggregated := { acc with by_location := dictSet (locationOf r) (mkLocRecord r) acc.by_location }
  if statusOf r = "success" then
    { acc' with summary := { acc'.summary with successful := acc'.summary.successful + 1 } }
  else
    { acc' with summary := { acc'.summary with failed := acc'.summary.failed + 1 } }

/-- Embedding of `aggregate_results` (dns_routes.py lines 120-147):
`total_locations` is
set to `len(results)` up front, then each record updates `by_location` and
one of the two counters. -/
def aggregate_results (results : List WorkerResult) : Aggregated :=
  results.foldl aggStep ⟨[], ⟨results.length, 0, 0⟩⟩

/-- The status determination of `orchestrate_dns_lookup` (dns_routes.py
lines 87-96), a function of the collected results and `tasks_published`. -/
def determine_status (results : List WorkerResult) (tasks_published : Nat) : String :=
  if results.length = 0 then "timeout"
  else if results.length < tasks_published then "partial"
  else "success"

/-- A task dict as built by the route: the six `DnsTaskMessage` fields plus
the mutable `trace_context` entry. -/
structure TaskDict where
  request_id : String
  task_id : String
  domain : String
  location : String
  record_types : List String
  timestamp : String
  trace_context : Option (List (String × String))
deriving DecidableEq, Repr

/-- Embedding of `RedisService.publish_dns_task` (redis_service.py lines
50-93) restricted
to its transformation of the task data: it injects a fresh trace context
(`inject(trace_context)` modelled as the environment-supplied `freshCtx`)
and assigns it to `task_data["trace_context"]`, overwriting whatever was
there, before serializing the whole dict into the stream envelope. -/
def publish_dns_task (freshCtx : List (String × String)) (task_data : TaskDict) : TaskDict :=
  { task_data with trace_context := some freshCtx }

/-- The per-location task construction of `orchestrate_dns_lookup`
(dns_routes.py lines 48-71): build the `DnsTaskMessage` dump, set
`trace_context` to the route-injected context, then publish (which injects
its own context).  Returns the envelope actually published. -/
def routePublishOneTask (request_id domain : String) (record_types : List String)
    (timestamp : String) (location : String)
    (routeCtx serviceCtx : List (String × String)) : TaskDict :=
  let task_dict : TaskDict :=
    ⟨request_id, request_id ++ "-" ++ location, domain, location, record_types, timestamp, none⟩
  let task_dict := { task_dict with trace_context := some routeCtx }
  publish_dns_task serviceCtx task_dict

/-- Python keyword-argument binding for a call made purely with keyword
arguments: it succeeds iff every keyword names a declared parameter and
every parameter without a default is supplied.  Parameters are given as
(name, has-default) pairs. -/
def kwargsBindOk (params : List (String × Bool)) (kwargs : List String) : Bool :=
  kwargs.all (fun k => params.any (fun p => p.1 = k)) &&
  params.all (fun p => p.2 || kwargs.contains p.1)

/-- The parameters of `RedisService.wait_for_results` after `self`
(redis_service.py line 95): `trace_id`, `expected_count`,
`timeout_seconds=30`. -/
def wait_for_results_params : List (String × Bool) :=
  [("trace_id", false), ("expected_count", false), ("timeout_seconds", true)]

/-- The keywords used at the call site in `orchestrate_dns_lookup`
(dns_routes.py lines 78-82): `request_id`, `expected_count`,
`timeout_seconds`. -/
def orchestrate_collect_kwargs : List String :=
  ["request_id", "expected_count", "timeout_seconds"]

/-- The parsed records of a message sequence whose `trace_id` matches the
window's, in observation order (the filter of redis_service.py line 155). -/
def matchedOf (trace_id : String) (msgs : List RawMessage) : List WorkerResult :=
  (msgs.filterMap RawMessage.parsed).filter (fun r => decide (r.trace_id = some trace_id))

/-- The message ids acknowledged while iterating a message sequence: every
message that parsed, matching or not (redis_service.py lines 160-164). -/
def ackedOf (msgs : List RawMessage) : List String :=
  msgs.filterMap (fun m => m.parsed.map (fun _ => m.msgId))

/-- Number of messages delivered by one poll (zero when the read raised). -/
def pollBatchLen (p : Poll) : Nat :=
  match p.outcome with
  | PollOutcome.exn => 0
  | PollOutcome.msgs batch => batch.length

/-- Concrete worker record tagged for trace `t1`, status `success`. -/
def rMatch : WorkerResult :=
  ⟨some "t1", some "us-east-1", some "success", some "recs", none, some 12⟩

/-- Concrete worker record tagged for an unrelated trace, with a failure
status and a populated error field. -/
def rOther : WorkerResult :=
  ⟨some "t9", some "eu-west-1", some "failure", none, some "boom", none⟩

/-- Concrete stream message carrying `rMatch`. -/
def mMatch : RawMessage := ⟨"5-1", some rMatch⟩

/-- Concrete stream message carrying `rOther`. -/
def mOther : RawMessage := ⟨"5-2", some rOther⟩

/-- Concrete stream message whose `data` field fails to parse. -/
def mBad : RawMessage := ⟨"5-3", none⟩

/-- Second concrete matching message (same origin as `mMatch`). -/
def mMatch2 : RawMessage := ⟨"5-4", some rMatch⟩

theorem processBatch_eq (trace_id : String) (batch : List RawMessage) :
    ∀ results acks, processBatch trace_id batch results acks
      = (results ++ matchedOf trace_id batch, acks ++ ackedOf batch) := by
  induction batch with
  | nil => intro results acks; simp [processBatch, matchedOf, ackedOf]
  | cons m rest ih =>
    intro results acks
    match hm : m.parsed with
    | none =>
      simp only [processBatch, hm, ih, matchedOf, ackedOf, List.filterMap_cons]
      simp [hm]
    | some r =>
      simp only [processBatch, hm, ih]
      by_cases hr : r.trace_id = some trace_id
      · simp [matchedOf, ackedOf, List.filterMap_cons, hm, hr]
      · simp [matchedOf, ackedOf, List.filterMap_cons, hm, hr]

theorem collectLoop_char (trace_id : String) (expected_count timeout_seconds : Nat) :
    ∀ (polls : List Poll) results acks seen res ak sn ex,
      collectLoop trace_id expected_count timeout_seconds polls results acks seen
        = some (res, ak, sn, ex) →
      ∃ procd : List RawMessage,
        sn = seen ++ procd ∧ res = results ++ matchedOf trace_id procd ∧
        ak = acks ++ ackedOf procd := by
  intro polls
  induction polls with
  | nil =>
    intro results acks seen res ak sn ex h
    rw [collectLoop] at h
    by_cases hd : expected_count ≤ results.length
    · simp only [if_pos hd, Option.some.injEq, Prod.mk.injEq] at h
      obtain ⟨h1, h2, h3, _⟩ := h
      exact ⟨[], by simp [matchedOf, ackedOf, ← h1, ← h2, ← h3]⟩
    · simp [if_neg hd] at h
  | cons p rest ih =>
    intro results acks seen res ak sn ex h
    rw [collectLoop] at h
    by_cases hd : expected_count ≤ results.length
    · simp only [if_pos hd, Option.some.injEq, Prod.mk.injEq] at h
      obtain ⟨h1, h2, h3, _⟩ := h
      exact ⟨[], by simp [matchedOf, ackedOf, ← h1, ← h2, ← h3]⟩
    · simp only [if_neg hd] at h
      by_cases ht : timeout_seconds < p.elapsed
      · simp only [if_pos ht, Option.some.injEq, Prod.mk.injEq] at h
        obtain ⟨h1, h2, h3, _⟩ := h
        exact ⟨[], by simp [matchedOf, ackedOf, ← h1, ← h2, ← h3]⟩
      · simp only [if_neg ht] at h
        match hp : p.outcome with
        | PollOutcome.exn =>
          rw [hp] at h
          simp only [Option.some.injEq, Prod.mk.injEq] at h
          obtain ⟨h1, h2, h3, _⟩ := h
          exact ⟨[], by simp [matchedOf, ackedOf, ← h1, ← h2, ← h3]⟩
        | PollOutcome.msgs batch =>
          rw [hp] at h
          simp only [processBatch_eq] at h
          obtain ⟨procd, hsn, hres, hak⟩ := ih _ _ _ _ _ _ _ h
          refine ⟨batch ++ procd, ?_, ?_, ?_⟩
          · simp [hsn]
          · simp only [hres, matchedOf, List.filterMap_append, List.filter_append,
              List.append_assoc]
          · simp only [hak, ackedOf, List.filterMap_append, List.append_assoc]

theorem openWindow_respError (m : String) :
    openWindow (CreateOutcome.respError m)
      = if containsSeq "BUSYGROUP".toList m.toList then Except.ok ()
        else Except.error () := rfl

theorem wait_create_like_ok (trace_id : String) (expected_count timeout_seconds : Nat)
    (polls : List Poll) (c : CreateOutcome) (hc : openWindow c = Except.ok ()) :
    wait_for_results trace_id expected_count timeout_seconds ⟨c, polls⟩
      = wait_for_results trace_id expected_count timeout_seconds
        ⟨CreateOutcome.ok, polls⟩ := by
  have hc' : openWindow (Env.mk c polls).create = Except.ok () := hc
  have hok : openWindow (Env.mk CreateOutcome.ok polls).create = Except.ok () := rfl
  rw [wait_for_results, wait_for_results, hc', hok]

theorem matchedOf_length_le (trace_id : String) (msgs : List RawMessage) :
    (matchedOf trace_id msgs).length ≤ msgs.length :=
  le_trans (List.length_filter_le _ _) (List.length_filterMap_le _ _)

theorem collectLoop_length_le (trace_id : String) (expected_count timeout_seconds : Nat) :
    ∀ (polls : List Poll) results acks seen res ak sn ex,
      (∀ p ∈ polls, pollBatchLen p ≤ 10) →
      results.length ≤ expected_count + 9 →
      collectLoop trace_id expected_count timeout_seconds polls results acks seen
        = some (res, ak, sn, ex) →
      res.length ≤ expected_count + 9 := by
  intro polls
  induction polls with
  | nil =>
    intro results acks seen res ak sn ex _ hlen h
    rw [collectLoop] at h
    by_cases hd : expected_count ≤ results.length
    · simp only [if_pos hd, Option.some.injEq, Prod.mk.injEq] at h
      obtain ⟨h1, _, _, _⟩ := h
      exact h1 ▸ hlen
    · simp [if_neg hd] at h
  | cons p rest ih =>
    intro results acks seen res ak sn ex hb hlen h
    rw [collectLoop] at h
    by_cases hd : expected_count ≤ results.length
    · simp only [if_pos hd, Option.some.injEq, Prod.mk.injEq] at h
      obtain ⟨h1, _, _, _⟩ := h
      exact h1 ▸ hlen
    · simp only [if_neg hd] at h
      by_cases ht : timeout_seconds < p.elapsed
      · simp only [if_pos ht, Option.some.injEq, Prod.mk.injEq] at h
        obtain ⟨h1, _, _, _⟩ := h
        exact h1 ▸ hlen
      · simp only [if_neg ht] at h
        match hp : p.outcome with
        | PollOutcome.exn =>
          rw [hp] at h
          simp only [Option.some.injEq, Prod.mk.injEq] at h
          obtain ⟨h1, _, _, _⟩ := h
          exact h1 ▸ hlen
        | PollOutcome.msgs batch =>
          rw [hp] at h
          simp only [processBatch_eq] at h
          have hbatch : batch.length ≤ 10 := by
            have := hb p (List.mem_cons_self p rest)
            simpa [pollBatchLen, hp] using this
          have hnew : (results ++ matchedOf trace_id batch).length ≤ expected_count + 9 := by
            have hm := matchedOf_length_le trace_id batch
            have hlt : results.length < expected_count := Nat.lt_of_not_le hd
            simp only [List.length_append]
            omega
          exact ih _ _ _ _ _ _ _ (fun q hq => hb q (List.mem_cons_of_mem p hq)) hnew h

/-- C1: the spec claims the orchestrate handler's invocation of
`wait_for_results` succeeds whenever publishing succeeded, so the caller
gets a structured outcome.  The call site passes the keyword `request_id`
but the function's parameter is named `trace_id`, so Python keyword binding
fails (a `TypeError` on every request): the required parameter is unbound
and an unknown keyword is supplied. -/
theorem c1_collect_call_binding_fails :
    kwargsBindOk wait_for_results_params orchestrate_collect_kwargs = false ∧
    orchestrate_collect_kwargs.contains "request_id" = true ∧
    wait_for_results_params.any (fun p => p.1 = "request_id") = false ∧
    wait_for_results_params.contains ("trace_id", false) = true ∧
    orchestrate_collect_kwargs.contains "trace_id" = false := by
  decide

/-- C2 counterexample: a run whose only poll raises leaves the loop through
the exception path; the outer handler returns without ever invoking
`xgroup_destroy`, so the opened consumer group is closed zero times, not
exactly once. -/
theorem c2_counterexample :
    wait_for_results "t1" 1 30 ⟨CreateOutcome.ok, [⟨0, PollOutcome.exn⟩]⟩
      = some (Except.ok ⟨[], [], 0, [], true⟩) ∧
    (0 : Nat) ≠ 1 := by
  exact ⟨rfl, by decide⟩

/-- C2 amended: on every determined run, the consumer group is destroyed
exactly once when the loop exits normally (target count reached or deadline
expired), and zero times when the run goes through the outer exception
handler (read raising, or window creation failing). -/
theorem c2_window_close_per_exit_path (trace_id : String)
    (expected_count timeout_seconds : Nat) (env : Env) (out : RunResult)
    (h : wait_for_results trace_id expected_count timeout_seconds env
      = some (Except.ok out)) :
    (out.viaExcept = false → out.destroys = 1) ∧
    (out.viaExcept = true → out.destroys = 0) := by
  rw [wait_for_results] at h
  match hc : openWindow env.create with
  | Except.error () =>
    rw [hc] at h
    simp only [Option.some.injEq, Except.ok.injEq] at h
    subst h
    exact ⟨fun hf => by simp at hf, fun _ => rfl⟩
  | Except.ok () =>
    rw [hc] at h
    match hl : collectLoop trace_id expected_count timeout_seconds env.polls [] [] [] with
    | none => rw [hl] at h; simp at h
    | some (res, ak, sn, ex) =>
      rw [hl] at h
      cases ex with
      | true =>
        simp only [if_true, Option.some.injEq, Except.ok.injEq] at h
        subst h
        exact ⟨fun hf => by simp at hf, fun _ => rfl⟩
      | false =>
        simp only [Bool.false_eq_true, if_false, Option.some.injEq, Except.ok.injEq] at h
        subst h
        exact ⟨fun _ => rfl, fun ht => by simp at ht⟩

/-- C2 witness: a concrete normal-completion run in which the consumer
group is destroyed exactly once. -/
theorem c2_window_close_witness :
    ((⟨[rMatch], ["5-1"], 1, [mMatch], false⟩ : RunResult).viaExcept = false →
      (⟨[rMatch], ["5-1"], 1, [mMatch], false⟩ : RunResult).destroys = 1) ∧
    ((⟨[rMatch], ["5-1"], 1, [mMatch], false⟩ : RunResult).viaExcept = true →
      (⟨[rMatch], ["5-1"], 1, [mMatch], false⟩ : RunResult).destroys = 0) :=
  c2_window_close_per_exit_path "t1" 1 30
    ⟨CreateOutcome.ok, [⟨0, PollOutcome.msgs [mMatch]⟩]⟩
    ⟨[rMatch], ["5-1"], 1, [mMatch], false⟩ rfl

/-- C3 counterexample: with `expected_count = 1` a single read delivering
two matching entries is appended wholesale, so `wait_for_results` returns 2
results — more than `expected_count`, contradicting the claimed inclusive
upper bound. -/
theorem c3_counterexample :
    wait_for_results "t1" 1 30 ⟨CreateOutcome.ok, [⟨0, PollOutcome.msgs [mMatch, mMatch2]⟩]⟩
      = some (Except.ok ⟨[rMatch, rMatch], ["5-1", "5-4"], 1, [mMatch, mMatch2], false⟩) ∧
    ¬ ([rMatch, rMatch].length ≤ 1) := by
  exact ⟨rfl, by decide⟩

/-- C3 amended: for every environment whose reads deliver at most 10
entries each (the `count=10` bound of `xreadgroup`), every determined run
returns normally with between 0 and `expected_count + 9` accumulated
results (a read is entered only while fewer than `expected_count` have
accumulated, and one read can overshoot by at most 9); returning fewer than
`expected_count` is not an error. -/
theorem c3_results_bounded (trace_id : String) (expected_count timeout_seconds : Nat)
    (env : Env) (outE : Except Unit RunResult)
    (hball : (env.polls.all fun p => pollBatchLen p ≤ 10) = true)
    (h : wait_for_results trace_id expected_count timeout_seconds env = some outE) :
    ∃ out : RunResult, outE = Except.ok out ∧ out.results.length ≤ expected_count + 9 := by
  have hb : ∀ p ∈ env.polls, pollBatchLen p ≤ 10 := by
    intro p hp
    have := List.all_eq_true.mp hball p hp
    exact of_decide_eq_true this
  rw [wait_for_results] at h
  match hc : openWindow env.create with
  | Except.error () =>
    rw [hc] at h
    simp only [Option.some.injEq] at h
    exact ⟨_, h.symm, by simp⟩
  | Except.ok () =>
    rw [hc] at h
    match hl : collectLoop trace_id expected_count timeout_seconds env.polls [] [] [] with
    | none => rw [hl] at h; simp at h
    | some (res, ak, sn, ex) =>
      rw [hl] at h
      have hres : res.length ≤ expected_count + 9 :=
        collectLoop_length_le trace_id expected_count timeout_seconds env.polls
          [] [] [] res ak sn ex hb (by simp) hl
      cases ex with
      | true =>
        simp only [if_true, Option.some.injEq] at h
        exact ⟨_, h.symm, hres⟩
      | false =>
        simp only [Bool.false_eq_true, if_false, Option.some.injEq] at h
        exact ⟨_, h.symm, hres⟩

/-- C3 witness: a concrete two-entry overshoot run satisfies the amended
bound (2 ≤ 1 + 9). -/
theorem c3_results_bounded_witness :
    (([⟨0, PollOutcome.msgs [mMatch, mMatch2]⟩] : List Poll).all
        fun p => pollBatchLen p ≤ 10) = true ∧
    (⟨[rMatch, rMatch], ["5-1", "5-4"], 1, [mMatch, mMatch2], false⟩ : RunResult).results.length
      ≤ 1 + 9 := by
  refine ⟨by decide, ?_⟩
  obtain ⟨out, hout, hlen⟩ := c3_results_bounded "t1" 1 30
    ⟨CreateOutcome.ok, [⟨0, PollOutcome.msgs [mMatch, mMatch2]⟩]⟩
    (Except.ok ⟨[rMatch, rMatch], ["5-1", "5-4"], 1, [mMatch, mMatch2], false⟩)
    (by decide) rfl
  exact (Except.ok.inj hout) ▸ hlen

/-- C4 counterexample: a read raising after one matching result does not
abort the request as a service-level error — `wait_for_results` returns the
accumulated single result as a normal value (which the route then maps to a
partial outcome). -/
theorem c4_counterexample :
    wait_for_results "t1" 2 30
        ⟨CreateOutcome.ok, [⟨0, PollOutcome.msgs [mMatch]⟩, ⟨1, PollOutcome.exn⟩]⟩
      ≠ some (Except.error ()) ∧
    wait_for_results "t1" 2 30
        ⟨CreateOutcome.ok, [⟨0, PollOutcome.msgs [mMatch]⟩, ⟨1, PollOutcome.exn⟩]⟩
      = some (Except.ok ⟨[rMatch], ["5-1"], 0, [mMatch], true⟩) := by
  exact ⟨by decide, rfl⟩

/-- C4 amended: no failure during the collection loop ever crosses the
boundary of `wait_for_results`: the outer handler catches every exception
(connection-class failures included) and returns the results accumulated so
far as a normal return, resolving the failure into the timeout/partial
outcome instead of surfacing a service-level error. -/
theorem c4_loop_failure_swallowed (trace_id : String)
    (expected_count timeout_seconds : Nat) (env : Env) (outE : Except Unit RunResult)
    (h : wait_for_results trace_id expected_count timeout_seconds env = some outE) :
    outE ≠ Except.error () := by
  rw [wait_for_results] at h
  match hc : openWindow env.create with
  | Except.error () =>
    rw [hc] at h
    simp only [Option.some.injEq] at h
    subst h
    exact fun hbad => Except.noConfusion hbad
  | Except.ok () =>
    rw [hc] at h
    match hl : collectLoop trace_id expected_count timeout_seconds env.polls [] [] [] with
    | none => rw [hl] at h; simp at h
    | some (res, ak, sn, ex) =>
      rw [hl] at h
      cases ex with
      | true =>
        simp only [if_true, Option.some.injEq] at h
        subst h
        exact fun hbad => Except.noConfusion hbad
      | false =>
        simp only [Bool.false_eq_true, if_false, Option.some.injEq] at h
        subst h
        exact fun hbad => Except.noConfusion hbad

/-- C4 witness: on the concrete exception run the returned value is the
normal (ok) return, not the error. -/
theorem c4_loop_failure_swallowed_witness :
    (Except.ok (⟨[rMatch], ["5-1"], 0, [mMatch], true⟩ : RunResult) : Except Unit RunResult)
      ≠ Except.error () :=
  c4_loop_failure_swallowed "t1" 2 30
    ⟨CreateOutcome.ok, [⟨0, PollOutcome.msgs [mMatch]⟩, ⟨1, PollOutcome.exn⟩]⟩
    (Except.ok ⟨[rMatch], ["5-1"], 0, [mMatch], true⟩) rfl

/-- C5 counterexample: at `tasks_published = 0` with one result, the
claim's timeout condition (`expected_count == 0 or results empty`) and its
success condition (`len >= expected_count`) both hold — so they are not
mutually exclusive — and the code returns `"success"`, not `"timeout"`. -/
theorem c5_counterexample :
    ((0 : Nat) = 0 ∨ ([rMatch] : List WorkerResult) = []) ∧
    (0 : Nat) ≤ ([rMatch] : List WorkerResult).length ∧
    determine_status [rMatch] 0 = "success" ∧
    determine_status [rMatch] 0 ≠ "timeout" := by
  exact ⟨Or.inl rfl, by decide, by decide, by decide⟩

/-- C5 amended: empty results give timeout; nonempty results below
`tasks_published` give partial; nonempty results at or above
`tasks_published` give success — and those three conditions (with the
`expected_count == 0` disjunct dropped from the timeout rule) are mutually
exclusive and exhaustive for every results list and expected count. -/
theorem c5_status_rules (results : List WorkerResult) (tasks_published : Nat) :
    (results.length = 0 → determine_status results tasks_published = "timeout") ∧
    (0 < results.length → results.length < tasks_published →
      determine_status results tasks_published = "partial") ∧
    (0 < results.length → tasks_published ≤ results.length →
      determine_status results tasks_published = "success") ∧
    (results.length = 0 ∨ (0 < results.length ∧ results.length < tasks_published) ∨
      (0 < results.length ∧ tasks_published ≤ results.length)) ∧
    ¬(results.length = 0 ∧ 0 < results.length) ∧
    ¬(results.length < tasks_published ∧ tasks_published ≤ results.length) := by
  refine ⟨?_, ?_, ?_, by omega, by omega, by omega⟩
  · intro h
    rw [determine_status, if_pos h]
  · intro h1 h2
    rw [determine_status, if_neg (by omega), if_pos h2]
  · intro h1 h2
    rw [determine_status, if_neg (by omega), if_neg (by omega)]

/-- C5 witness: one result of two expected is reported as partial. -/
theorem c5_status_rules_witness :
    0 < ([rMatch] : List WorkerResult).length ∧
    ([rMatch] : List WorkerResult).length < 2 ∧
    determine_status [rMatch] 2 = "partial" :=
  ⟨by decide, by decide, (c5_status_rules [rMatch] 2).2.1 (by decide) (by decide)⟩

/-- C7: opening the correlation window is idempotent — when `xgroup_create`
fails with a `ResponseError` whose message contains `BUSYGROUP` (group of
the deterministically derived name `orchestrator-` + trace id already
exists), the run proceeds exactly as if the creation had succeeded; any
other create failure is raised out of the open block. -/
theorem c7_open_idempotent (trace_id m : String)
    (expected_count timeout_seconds : Nat) (polls : List Poll) :
    (containsSeq "BUSYGROUP".toList m.toList = true →
      wait_for_results trace_id expected_count timeout_seconds
          ⟨CreateOutcome.respError m, polls⟩
        = wait_for_results trace_id expected_count timeout_seconds
          ⟨CreateOutcome.ok, polls⟩) ∧
    (containsSeq "BUSYGROUP".toList m.toList = false →
      openWindow (CreateOutcome.respError m) = Except.error ()) ∧
    consumer_group trace_id = "orchestrator-" ++ trace_id := by
  refine ⟨?_, ?_, rfl⟩
  · intro hb
    exact wait_create_like_ok trace_id expected_count timeout_seconds polls _
      (by rw [openWindow_respError, if_pos hb])
  · intro hb
    rw [openWindow_respError, if_neg]
    exact fun hcc => Bool.noConfusion (hb.symm.trans hcc)

/-- C7 witness: the live BUSYGROUP message is treated as success on a
concrete run, and a NOGROUP-class message is raised. -/
theorem c7_open_idempotent_witness :
    containsSeq "BUSYGROUP".toList
        "BUSYGROUP Consumer Group name already exists".toList = true ∧
    wait_for_results "t1" 1 30
        ⟨CreateOutcome.respError "BUSYGROUP Consumer Group name already exists",
          [⟨0, PollOutcome.msgs [mMatch]⟩]⟩
      = wait_for_results "t1" 1 30 ⟨CreateOutcome.ok, [⟨0, PollOutcome.msgs [mMatch]⟩]⟩ ∧
    containsSeq "BUSYGROUP".toList "NOGROUP no such key".toList = false ∧
    openWindow (CreateOutcome.respError "NOGROUP no such key") = Except.error () :=
  ⟨by decide,
   (c7_open_idempotent "t1" "BUSYGROUP Consumer Group name already exists" 1 30
     [⟨0, PollOutcome.msgs [mMatch]⟩]).1 (by decide),
   by decide,
   (c7_open_idempotent "t1" "NOGROUP no such key" 1 30
     [⟨0, PollOutcome.msgs [mMatch]⟩]).2.1 (by decide)⟩

/-- C8: on every determined run, the returned results are exactly the
parsed entries whose correlation (trace) identifier equals the window's, in
observation order with duplicates retained; acknowledged ids are exactly
those of every parsed entry, matching or not — so a non-matching entry is
never present in the results yet its id is acknowledged. -/
theorem c8_filter_ack_order (trace_id : String)
    (expected_count timeout_seconds : Nat) (env : Env) (out : RunResult)
    (h : wait_for_results trace_id expected_count timeout_seconds env
      = some (Except.ok out)) :
    out.results = matchedOf trace_id out.seen ∧
    out.acks = ackedOf out.seen ∧
    ∀ m ∈ out.seen, ∀ r, m.parsed = some r → r.trace_id ≠ some trace_id →
      r ∉ out.results ∧ m.msgId ∈ out.acks := by
  have main : out.results = matchedOf trace_id out.seen ∧ out.acks = ackedOf out.seen := by
    rw [wait_for_results] at h
    match hc : openWindow env.create with
    | Except.error () =>
      rw [hc] at h
      simp only [Option.some.injEq, Except.ok.injEq] at h
      subst h
      exact ⟨rfl, rfl⟩
    | Except.ok () =>
      rw [hc] at h
      match hl : collectLoop trace_id expected_count timeout_seconds env.polls [] [] [] with
      | none => rw [hl] at h; simp at h
      | some (res, ak, sn, ex) =>
        rw [hl] at h
        obtain ⟨procd, hsn, hres, hak⟩ :=
          collectLoop_char trace_id expected_count timeout_seconds env.polls
            [] [] [] res ak sn ex hl
        simp only [List.nil_append] at hsn hres hak
        cases ex with
        | true =>
          simp only [if_true, Option.some.injEq, Except.ok.injEq] at h
          subst h
          exact ⟨by simp [hres, hsn], by simp [hak, hsn]⟩
        | false =>
          simp only [Bool.false_eq_true, if_false, Option.some.injEq, Except.ok.injEq] at h
          subst h
          exact ⟨by simp [hres, hsn], by simp [hak, hsn]⟩
  refine ⟨main.1, main.2, ?_⟩
  intro m hm r hr hne
  constructor
  · intro hmem
    rw [main.1] at hmem
    have := (List.mem_filter.mp hmem).2
    exact hne (of_decide_eq_true this)
  · rw [main.2]
    exact List.mem_filterMap.mpr ⟨m, hm, by rw [hr]; rfl⟩

/-- C8 witness: on a concrete run with one matching, one non-matching and
one malformed entry, the results are the single matching record, and the
non-matching record is absent while its id is acknowledged. -/
theorem c8_filter_ack_order_witness :
    ([rMatch] : List WorkerResult) = matchedOf "t1" [mMatch, mOther, mBad] ∧
    (["5-1", "5-2"] : List String) = ackedOf [mMatch, mOther, mBad] ∧
    rOther ∉ ([rMatch] : List WorkerResult) ∧
    ("5-2" : String) ∈ (["5-1", "5-2"] : List String) := by
  have h := c8_filter_ack_order "t1" 2 30
    ⟨CreateOutcome.ok, [⟨0, PollOutcome.msgs [mMatch, mOther, mBad]⟩, ⟨31, PollOutcome.msgs []⟩]⟩
    ⟨[rMatch], ["5-1", "5-2"], 1, [mMatch, mOther, mBad], false⟩ rfl
  have h3 := h.2.2 mOther (by decide) rOther rfl (by decide)
  exact ⟨h.1, h.2.1, h3.1, h3.2⟩

theorem dictGet_dictSet (k k' : String) (v : LocRecord) :
    ∀ m, dictGet k' (dictSet k v m) = if k = k' then some v else dictGet k' m := by
  intro m
  induction m with
  | nil => simp [dictSet, dictGet]
  | cons hd tl ih =>
    obtain ⟨k2, v2⟩ := hd
    by_cases h2 : k2 = k
    · subst h2
      simp only [dictSet, if_pos rfl, dictGet]
      by_cases hk : k2 = k'
      · simp [hk]
      · simp [hk]
    · simp only [dictSet, if_neg h2, dictGet]
      by_cases hk2 : k2 = k'
      · have hk : ¬ k = k' := fun he => h2 (he ▸ hk2)
        simp [hk2, hk]
      · simp [hk2, ih]

theorem aggregate_by_location_eq :
    ∀ (results : List WorkerResult) (acc : Aggregated),
      (results.foldl aggStep acc).by_location
        = results.foldl (fun m r => dictSet (locationOf r) (mkLocRecord r) m)
            acc.by_location := by
  intro results
  induction results with
  | nil => intro acc; rfl
  | cons r rest ih =>
    intro acc
    simp only [List.foldl_cons]
    rw [ih]
    have hstep : (aggStep acc r).by_location
        = dictSet (locationOf r) (mkLocRecord r) acc.by_location := by
      unfold aggStep
      by_cases h : statusOf r = "success" <;> simp [h]
    rw [hstep]

theorem dictGet_foldl_byLoc (loc : String) :
    ∀ (l : List WorkerResult) (m : List (String × LocRecord)),
      dictGet loc (l.foldl (fun m r => dictSet (locationOf r) (mkLocRecord r) m) m)
        = (((l.filter fun r => decide (locationOf r = loc)).getLast?).map mkLocRecord).or
            (dictGet loc m) := by
  intro l
  induction l with
  | nil => intro m; simp
  | cons r rest ih =>
    intro m
    simp only [List.foldl_cons]
    rw [ih, dictGet_dictSet]
    by_cases h : locationOf r = loc
    · have hfcons : List.filter (fun r => decide (locationOf r = loc)) (r :: rest)
          = r :: List.filter (fun r => decide (locationOf r = loc)) rest := by
        simp [List.filter_cons, h]
      rw [hfcons, if_pos h]
      cases hrest : List.filter (fun r => decide (locationOf r = loc)) rest with
      | nil => rfl
      | cons x xs =>
        rw [List.getLast?_cons_cons]
        obtain hz := List.getLast?_eq_getLast (x :: xs) (by simp)
        rw [hz]
        rfl
    · have hfcons : List.filter (fun r => decide (locationOf r = loc)) (r :: rest)
          = List.filter (fun r => decide (locationOf r = loc)) rest := by
        simp [List.filter_cons, h]
      rw [hfcons, if_neg h]

theorem aggregate_counts :
    ∀ (results : List WorkerResult) (acc : Aggregated),
      (results.foldl aggStep acc).summary.successful
        = acc.summary.successful + (results.countP fun r => decide (statusOf r = "success")) ∧
      (results.foldl aggStep acc).summary.failed
        = acc.summary.failed + (results.countP fun r => !decide (statusOf r = "success")) ∧
      (results.foldl aggStep acc).summary.total_locations
        = acc.summary.total_locations := by
  intro results
  induction results with
  | nil => intro acc; simp
  | cons r rest ih =>
    intro acc
    simp only [List.foldl_cons, List.countP_cons]
    obtain ⟨ih1, ih2, ih3⟩ := ih (aggStep acc r)
    refine ⟨?_, ?_, ?_⟩
    · rw [ih1]
      by_cases h : statusOf r = "success"
      · simp [aggStep, h]; omega
      · simp [aggStep, h]
    · rw [ih2]
      by_cases h : statusOf r = "success"
      · simp [aggStep, h]
      · simp [aggStep, h]; omega
    · rw [ih3]
      by_cases h : statusOf r = "success" <;> simp [aggStep, h]

/-- C6: the per-origin breakdown keys on each record's origin (its
`location`, defaulting to `unknown`) with last write winning on duplicates,
and the summary counts as successes exactly the records whose status equals
the `success` marker — every other record, including those with a populated
error field, counts as a failure. -/
theorem c6_aggregate_breakdown (results : List WorkerResult) (loc : String) :
    dictGet loc (aggregate_results results).by_location
      = ((results.filter fun r => decide (locationOf r = loc)).getLast?).map mkLocRecord ∧
    (aggregate_results results).summary.successful
      = (results.countP fun r => decide (statusOf r = "success")) ∧
    (aggregate_results results).summary.failed
      = (results.countP fun r => !decide (statusOf r = "success")) := by
  refine ⟨?_, ?_, ?_⟩
  · rw [aggregate_results, aggregate_by_location_eq, dictGet_foldl_byLoc]
    simp [dictGet]
  · have := (aggregate_counts results ⟨[], ⟨results.length, 0, 0⟩⟩).1
    simpa [aggregate_results] using this
  · have := (aggregate_counts results ⟨[], ⟨results.length, 0, 0⟩⟩).2.1
    simpa [aggregate_results] using this

/-- C9: summary bookkeeping of `aggregate_results` — successful plus failed
always equals `total_locations`, which is the input length even when
duplicate origins collapse into one `by_location` key; the empty input
yields the empty map and all-zero counts. -/
theorem c9_summary_invariant (results : List WorkerResult) :
    (aggregate_results results).summary.successful
        + (aggregate_results results).summary.failed
      = (aggregate_results results).summary.total_locations ∧
    (aggregate_results results).summary.total_locations = results.length ∧
    aggregate_results ([] : List WorkerResult) = ⟨[], ⟨0, 0, 0⟩⟩ := by
  obtain ⟨h1, h2, h3⟩ := aggregate_counts results ⟨[], ⟨results.length, 0, 0⟩⟩
  refine ⟨?_, ?_, rfl⟩
  · rw [aggregate_results] at *
    rw [h1, h2, h3]
    simp only [Nat.zero_add]
    have := List.length_eq_countP_add_countP (fun r => decide (statusOf r = "success")) results
    simpa using this.symm
  · rw [aggregate_results] at *
    rw [h3]

/-- C10: `publish_dns_task` overwrites the task's `trace_context` field with
the freshly injected propagation metadata, discarding whatever context the
caller placed there (in the route, the context injected at lines 63-65 is
replaced by the one injected inside `publish_dns_task`), while every other
task field is carried into the published envelope unchanged. -/
theorem c10_publish_trace_context (svcCtx routeCtx : List (String × String))
    (task : TaskDict) (callerCtx : Option (List (String × String)))
    (request_id domain timestamp location : String) (record_types : List String) :
    (publish_dns_task svcCtx { task with trace_context := callerCtx }).trace_context
      = some svcCtx ∧
    (publish_dns_task svcCtx { task with trace_context := callerCtx }).request_id
      = task.request_id ∧
    (publish_dns_task svcCtx { task with trace_context := callerCtx }).task_id
      = task.task_id ∧
    (publish_dns_task svcCtx { task with trace_context := callerCtx }).domain
      = task.domain ∧
    (publish_dns_task svcCtx { task with trace_context := callerCtx }).location
      = task.location ∧
    (publish_dns_task svcCtx { task with trace_context := callerCtx }).record_types
      = task.record_types ∧
    (publish_dns_task svcCtx { task with trace_context := callerCtx }).timestamp
      = task.timestamp ∧
    routePublishOneTask request_id domain record_types timestamp location routeCtx svcCtx
      = ⟨request_id, request_id ++ "-" ++ location, domain, location, record_types,
          timestamp, some svcCtx⟩ :=
  ⟨rfl, rfl, rfl, rfl, rfl, rfl, rfl, rfl⟩

end Oteldemo
